import Mathlib

/-!
Shallow embedding of `src/linkchecker2.py` (a single-file website link
checker) together with proofs about the claims of its specification.

Modelling conventions:
* A URL is an opaque `String`.
* The HTTP transport (`requests.get`) is an oracle `Network : Url → FetchResult`:
  either a transport error (`requests.exceptions.RequestException`, covering
  timeout, DNS failure, connection refused, malformed URL) or a response
  carrying the HTTP status code, the `Content-Type` header value and the
  parsed document.  A parsed document is abstracted to the list of `href`
  attribute values of its anchors: those found inside `<nav>` regions
  (`navAnchors`, what `soup.find_all("nav")`/`nav.find_all("a", href=True)`
  walks) and those found anywhere (`allAnchors`, what
  `soup.find_all("a", href=True)` walks).
* `urlparse` and `urljoin` from `urllib.parse` are external capabilities,
  abstracted into a `UrlEnv` record of pure functions (scheme component,
  netloc component, join).
* Python `set`s are modelled as duplicate-free lists: `insert_url` /
  `insert_pair` add an element only when absent.  `set.pop` returns an
  arbitrary element; the crawl loop therefore takes a scheduler
  `sched : Nat → Nat` choosing (mod the frontier size) which element is
  popped, so theorems quantified over `sched` cover every pop order.
* The run is instrumented with an event trace: every `requests.get` call
  emits `Event.fetchEv url timeout` (with the timeout argument that the
  source passes, `none` when the call site passes no timeout), every
  `check_link` call emits `Event.checkEv url status`, and marking a page
  visited in the crawl loop emits `Event.visitEv url` (the
  "Crawling and checking links on" moment).
* The CSV file is an append-only list of `Row`s; `csv_filename` is carried
  for signature fidelity only.  The pickle state file is modelled by the
  `stored : Option (List Url × List Url)` argument of `crawl_website`
  (`none` when `crawl_state.pkl` does not exist); `save_state` persists the
  pair, which the final loop state reflects.
* The unbounded `while links_to_crawl:` loop is given explicit fuel; the
  third component of `crawl_loop`'s result records whether the loop
  actually finished (frontier empty) rather than running out of fuel.
-/

namespace LinkChecker

abbrev Url := String

/-- Outcome classification of `check_link`: the strings "Working"/"Broken". -/
inductive Status where
  | working
  | broken
deriving DecidableEq, Repr

/-- A fetched, parsed HTTP response: status code, `Content-Type` header
(`''` when absent, matching `response.headers.get('Content-Type', '')`),
anchor hrefs inside `<nav>` regions, and anchor hrefs anywhere in the
document. -/
structure Page where
  status : Nat
  contentType : String
  navAnchors : List String
  allAnchors : List String
deriving DecidableEq, Repr

/-- Result of one `requests.get` call: a transport-level error
(`RequestException`) or a response (any HTTP status, 4xx/5xx included). -/
inductive FetchResult where
  | err
  | ok (response : Page)
deriving DecidableEq, Repr

/-- The network oracle: what fetching each URL yields during this run. -/
abbrev Network := Url → FetchResult

/-- The `urllib.parse` capabilities used by the source: the `.scheme` and
`.netloc` components of `urlparse`, and `urljoin`. -/
structure UrlEnv where
  scheme : String → String
  netloc : String → String
  urljoin : String → String → String

/-- One row appended to the CSV report file. -/
inductive Row where
  | header
  | data (source_page : Url) (link_url : Url) (status : Status)
deriving DecidableEq, Repr

/-- Instrumentation events of a run: each `requests.get` (with the timeout
argument passed at that call site), each `check_link` call, and each page
the crawl loop marks visited. -/
inductive Event where
  | fetchEv (url : Url) (timeout : Option Nat)
  | checkEv (url : Url) (status : Status)
  | visitEv (url : Url)
deriving DecidableEq, Repr

/-- Python `set.add`: insert only when absent. -/
def insert_url (u : Url) (l : List Url) : List Url :=
  if l.contains u then l else l ++ [u]

/-- Python `set.add` on `(source_page, link)` pairs. -/
def insert_pair (p : Url × Url) (l : List (Url × Url)) : List (Url × Url) :=
  if l.contains p then l else l ++ [p]

/-- Python `s.startswith(pat)`, on the underlying character lists. -/
def starts_with (s pat : String) : Bool :=
  pat.toList.isPrefixOf s.toList

/-- Python substring test `pat in s`, on the underlying character lists. -/
def contains_substr (s pat : String) : Bool :=
  go pat.toList s.toList
where
  go (pat : List Char) : List Char → Bool
    | [] => pat.isEmpty
    | c :: rest => pat.isPrefixOf (c :: rest) || go pat rest

/-- `is_valid_url`: the URL has a non-empty netloc and a non-empty scheme. -/
def is_valid_url (env : UrlEnv) (url : Url) : Bool :=
  !(env.netloc url == "") && !(env.scheme url == "")

/-- `is_same_or_subpath`: `url.startswith(base_url)`. -/
def is_same_or_subpath (url base_url : Url) : Bool :=
  starts_with url base_url

/-- `is_html`: the `Content-Type` header contains `"text/html"`. -/
def is_html (response : Page) : Bool :=
  contains_substr response.contentType "text/html"

/-- `check_link`: GET with `timeout=10`; status 200 is Working, any other
status is Broken, a transport error is Broken.  Returns the status together
with the events of the call. -/
def check_link (net : Network) (url : Url) : Status × List Event :=
  match net url with
  | .err =>
      (Status.broken, [Event.fetchEv url (some 10), Event.checkEv url Status.broken])
  | .ok response =>
      let st := if response.status == 200 then Status.working else Status.broken
      (st, [Event.fetchEv url (some 10), Event.checkEv url st])

/-- The inner collection loop of `extract_menu_links`: join each nav href
against the page URL, keep the valid ones, build the set. -/
def collect_menu (env : UrlEnv) (url : Url) : List String → List Url → List Url
  | [], links => links
  | href :: rest, links =>
      let full_url := env.urljoin url href
      if is_valid_url env full_url then
        collect_menu env url rest (insert_url full_url links)
      else
        collect_menu env url rest links

/-- `extract_menu_links`: GET without timeout; empty set on transport error
or non-HTML response, else the set of valid joined nav-anchor targets. -/
def extract_menu_links (env : UrlEnv) (net : Network) (url : Url) :
    List Url × List Event :=
  match net url with
  | .err => ([], [Event.fetchEv url none])
  | .ok response =>
      if !(is_html response) then ([], [Event.fetchEv url none])
      else (collect_menu env url response.navAnchors [], [Event.fetchEv url none])

/-- The inner collection loop of `get_body_links`: join each document href
against the page URL, keep valid targets not in `menu_links`, build the set
of `(source_page, link)` pairs. -/
def collect_body (env : UrlEnv) (url : Url) (menu_links : List Url) :
    List String → List (Url × Url) → List (Url × Url)
  | [], links => links
  | href :: rest, links =>
      let full_url := env.urljoin url href
      if is_valid_url env full_url && !(menu_links.contains full_url) then
        collect_body env url menu_links rest (insert_pair (url, full_url) links)
      else
        collect_body env url menu_links rest links

/-- `get_body_links`: GET without timeout; empty set on transport error or
non-HTML response, else all valid document links outside `menu_links`,
paired with the source page.  `base_url` is accepted but unused, exactly as
in the source. -/
def get_body_links (env : UrlEnv) (net : Network) (url : Url) (base_url : Url)
    (menu_links : List Url) : List (Url × Url) × List Event :=
  match net url with
  | .err => ([], [Event.fetchEv url none])
  | .ok response =>
      if !(is_html response) then ([], [Event.fetchEv url none])
      else (collect_body env url menu_links response.allAnchors [], [Event.fetchEv url none])

/-- `load_state`: the persisted `(visited_pages, links_to_crawl)` pair, or
two empty sets when `crawl_state.pkl` does not exist. -/
def load_state (stored : Option (List Url × List Url)) : List Url × List Url :=
  stored.getD ([], [])

/-- `save_state`: persist the `(visited_pages, links_to_crawl)` pair. -/
def save_state (visited_pages links_to_crawl : List Url) :
    Option (List Url × List Url) :=
  some (visited_pages, links_to_crawl)

/-- The four CSV cells of the header row, for reference. -/
def header_cells : List String := ["Source Page", "Link URL", "Status"]

/-- The hard-coded blocklist: body links starting with this string are
skipped entirely in the crawl loop. -/
def tagged_records_url : String :=
  "https://library2.utm.utoronto.ca/otra/reed/tagged-records"

/-- Result of the `for source_page, link_url in page_links:` loop of
`crawl_website`: updated frontier, number of `check_link` calls made, CSV
rows written, events emitted. -/
structure LinkPassResult where
  frontier : List Url
  count : Nat
  rows : List Row
  events : List Event
deriving DecidableEq, Repr

/-- The body of `crawl_website`'s inner `for` loop over `page_links`:
skip blocklisted targets, `check_link` each remaining one, count it, write
the row (subject to the broken-only filter), and enqueue in-scope
not-yet-visited targets into the frontier. -/
def process_links (net : Network) (base_url : Url) (record_only_broken : Bool)
    (visited_pages : List Url) :
    List (Url × Url) → List Url → LinkPassResult
  | [], links_to_crawl => ⟨links_to_crawl, 0, [], []⟩
  | (source_page, link_url) :: rest, links_to_crawl =>
      if starts_with link_url tagged_records_url then
        process_links net base_url record_only_broken visited_pages rest links_to_crawl
      else
        let c := check_link net link_url
        let row :=
          if !record_only_broken || c.1 == Status.broken then
            [Row.data source_page link_url c.1]
          else []
        let links₁ :=
          if is_same_or_subpath link_url base_url && !(visited_pages.contains link_url) then
            insert_url link_url links_to_crawl
          else links_to_crawl
        let r := process_links net base_url record_only_broken visited_pages rest links₁
        ⟨r.frontier, r.count + 1, row ++ r.rows, c.2 ++ r.events⟩

/-- The mutable state of `crawl_website`'s `while` loop. -/
structure LoopState where
  visited : List Url
  frontier : List Url
  count : Nat
  rows : List Row
deriving DecidableEq, Repr

/-- One iteration of the `while links_to_crawl:` loop: pop the element the
scheduler selects; if it is unvisited and in scope, mark it visited,
extract its body links and run the inner `for` loop over them; otherwise
discard it. -/
def crawl_step (env : UrlEnv) (net : Network) (pick : Nat) (base_url : Url)
    (record_only_broken : Bool) (menu_links : List Url) (s : LoopState) :
    LoopState × List Event :=
  let i := pick % s.frontier.length
  let current_page := s.frontier.getD i ""
  let frontier₁ := s.frontier.eraseIdx i
  if !(s.visited.contains current_page) && is_same_or_subpath current_page base_url then
    let visited₁ := insert_url current_page s.visited
    let gb := get_body_links env net current_page base_url menu_links
    let r := process_links net base_url record_only_broken visited₁ gb.1 frontier₁
    (⟨visited₁, r.frontier, s.count + r.count, s.rows ++ r.rows⟩,
     Event.visitEv current_page :: (gb.2 ++ r.events))
  else
    (⟨s.visited, frontier₁, s.count, s.rows⟩, [])

/-- The fuelled `while links_to_crawl:` loop.  The Boolean result is `true`
iff the loop genuinely terminated (frontier empty) rather than exhausting
its fuel. -/
def crawl_loop (env : UrlEnv) (net : Network) (sched : Nat → Nat) (base_url : Url)
    (record_only_broken : Bool) (menu_links : List Url) :
    Nat → LoopState → LoopState × List Event × Bool
  | 0, s => (s, [], s.frontier.isEmpty)
  | fuel + 1, s =>
      if s.frontier.isEmpty then (s, [], true)
      else
        let p := crawl_step env net (sched fuel) base_url record_only_broken menu_links s
        let r := crawl_loop env net sched base_url record_only_broken menu_links fuel p.1
        (r.1, p.2 ++ r.2.1, r.2.2)

/-- The `for menu_link in menu_links:` loop of the menu pass: `check_link`
each menu link and collect the `(start_url, menu_link, status)` triples
together with the events. -/
def check_menu_links (net : Network) (start_url : Url) :
    List Url → List (Url × Url × Status) × List Event
  | [] => ([], [])
  | menu_link :: rest =>
      let c := check_link net menu_link
      let r := check_menu_links net start_url rest
      ((start_url, menu_link, c.1) :: r.1, c.2 ++ r.2)

/-- The menu-result writing loop: a data row for each triple that passes
the broken-only filter. -/
def menu_rows (record_only_broken : Bool)
    (menu_results : List (Url × Url × Status)) : List Row :=
  menu_results.filterMap fun r =>
    if !record_only_broken || r.2.2 == Status.broken then
      some (Row.data r.1 r.2.1 r.2.2)
    else none

/-- Everything observable about one `crawl_website` run: final visited and
frontier sets (what the last `save_state` persisted), the rows appended to
the CSV file this run, the events of the menu pass and of the crawl loop,
the printed `Total number of links checked` value, and whether the loop
finished within its fuel. -/
structure RunResult where
  visited : List Url
  frontier : List Url
  rows : List Row
  menuEvents : List Event
  loopEvents : List Event
  summary : Nat
  completed : Bool
deriving DecidableEq, Repr

/-- All events of the run, in order. -/
def RunResult.events (r : RunResult) : List Event :=
  r.menuEvents ++ r.loopEvents

/-- `crawl_website`: load persisted state, seed the frontier with
`start_url` on a fresh start, run the one-time menu pass when the visited
set is empty (header row first, then filtered menu results), then run the
crawl loop. -/
def crawl_website (env : UrlEnv) (net : Network) (sched : Nat → Nat) (fuel : Nat)
    (start_url base_url : Url) (csv_filename : String) (record_only_broken : Bool)
    (stored : Option (List Url × List Url)) : RunResult :=
  let st := load_state stored
  let visited_pages := st.1
  let links_to_crawl :=
    if visited_pages.isEmpty && st.2.isEmpty then insert_url start_url st.2 else st.2
  if visited_pages.isEmpty then
    let em := extract_menu_links env net start_url
    let mr := check_menu_links net start_url em.1
    let rows₀ := Row.header :: menu_rows record_only_broken mr.1
    let lr := crawl_loop env net sched base_url record_only_broken em.1 fuel
      ⟨visited_pages, links_to_crawl, 0, rows₀⟩
    ⟨lr.1.visited, lr.1.frontier, lr.1.rows, em.2 ++ mr.2, lr.2.1, lr.1.count, lr.2.2⟩
  else
    let lr := crawl_loop env net sched base_url record_only_broken [] fuel
      ⟨visited_pages, links_to_crawl, 0, []⟩
    ⟨lr.1.visited, lr.1.frontier, lr.1.rows, [], lr.2.1, lr.1.count, lr.2.2⟩

/-- The pages a trace marks visited, in order. -/
def visits (evs : List Event) : List Url :=
  evs.filterMap fun e =>
    match e with
    | .visitEv u => some u
    | _ => none

/-- The `check_link` calls of a trace, in order. -/
def checks (evs : List Event) : List (Url × Status) :=
  evs.filterMap fun e =>
    match e with
    | .checkEv u st => some (u, st)
    | _ => none

/-- The `requests.get` calls of a trace with the timeout each was issued
with, in order. -/
def fetches (evs : List Event) : List (Url × Option Nat) :=
  evs.filterMap fun e =>
    match e with
    | .fetchEv u t => some (u, t)
    | _ => none

@[simp]
theorem visits_nil : visits [] = [] := rfl

@[simp]
theorem visits_append (a b : List Event) : visits (a ++ b) = visits a ++ visits b :=
  List.filterMap_append a b _

@[simp]
theorem checks_nil : checks [] = [] := rfl

@[simp]
theorem checks_append (a b : List Event) : checks (a ++ b) = checks a ++ checks b :=
  List.filterMap_append a b _

@[simp]
theorem fetches_nil : fetches [] = [] := rfl

@[simp]
theorem fetches_append (a b : List Event) : fetches (a ++ b) = fetches a ++ fetches b :=
  List.filterMap_append a b _

@[simp]
theorem visits_check_link (net : Network) (url : Url) :
    visits (check_link net url).2 = [] := by
  unfold check_link
  cases net url <;> rfl

@[simp]
theorem checks_check_link (net : Network) (url : Url) :
    checks (check_link net url).2 = [(url, (check_link net url).1)] := by
  unfold check_link
  cases net url <;> rfl

@[simp]
theorem fetches_check_link (net : Network) (url : Url) :
    fetches (check_link net url).2 = [(url, some 10)] := by
  unfold check_link
  cases net url <;> rfl

@[simp]
theorem visits_get_body_links (env : UrlEnv) (net : Network) (url base_url : Url)
    (menu_links : List Url) :
    visits (get_body_links env net url base_url menu_links).2 = [] := by
  unfold get_body_links
  cases net url with
  | err => rfl
  | ok response => by_cases h : is_html response <;> simp [h, visits]

@[simp]
theorem checks_get_body_links (env : UrlEnv) (net : Network) (url base_url : Url)
    (menu_links : List Url) :
    checks (get_body_links env net url base_url menu_links).2 = [] := by
  unfold get_body_links
  cases net url with
  | err => rfl
  | ok response => by_cases h : is_html response <;> simp [h, checks]

@[simp]
theorem fetches_get_body_links (env : UrlEnv) (net : Network) (url base_url : Url)
    (menu_links : List Url) :
    fetches (get_body_links env net url base_url menu_links).2 = [(url, none)] := by
  unfold get_body_links
  cases net url with
  | err => rfl
  | ok response => by_cases h : is_html response <;> simp [h, fetches]

@[simp]
theorem fetches_extract_menu_links (env : UrlEnv) (net : Network) (url : Url) :
    fetches (extract_menu_links env net url).2 = [(url, none)] := by
  unfold extract_menu_links
  cases net url with
  | err => rfl
  | ok response => by_cases h : is_html response <;> simp [h, fetches]

@[simp]
theorem visits_cons_fetch (u : Url) (t : Option Nat) (evs : List Event) :
    visits (Event.fetchEv u t :: evs) = visits evs := rfl

@[simp]
theorem visits_cons_check (u : Url) (st : Status) (evs : List Event) :
    visits (Event.checkEv u st :: evs) = visits evs := rfl

@[simp]
theorem visits_cons_visit (u : Url) (evs : List Event) :
    visits (Event.visitEv u :: evs) = u :: visits evs := rfl

@[simp]
theorem checks_cons_fetch (u : Url) (t : Option Nat) (evs : List Event) :
    checks (Event.fetchEv u t :: evs) = checks evs := rfl

@[simp]
theorem checks_cons_check (u : Url) (st : Status) (evs : List Event) :
    checks (Event.checkEv u st :: evs) = (u, st) :: checks evs := rfl

@[simp]
theorem checks_cons_visit (u : Url) (evs : List Event) :
    checks (Event.visitEv u :: evs) = checks evs := rfl

@[simp]
theorem fetches_cons_fetch (u : Url) (t : Option Nat) (evs : List Event) :
    fetches (Event.fetchEv u t :: evs) = (u, t) :: fetches evs := rfl

@[simp]
theorem fetches_cons_check (u : Url) (st : Status) (evs : List Event) :
    fetches (Event.checkEv u st :: evs) = fetches evs := rfl

@[simp]
theorem fetches_cons_visit (u : Url) (evs : List Event) :
    fetches (Event.visitEv u :: evs) = fetches evs := rfl

theorem mem_insert_url (u v : Url) (l : List Url) :
    u ∈ insert_url v l ↔ u ∈ l ∨ u = v := by
  unfold insert_url
  cases h : l.contains v with
  | true =>
      have hv : v ∈ l := by simpa using h
      simp only [if_true]
      constructor
      · exact Or.inl
      · rintro (h1 | rfl)
        · exact h1
        · exact hv
  | false => simp

theorem visits_process_links (net : Network) (base_url : Url)
    (record_only_broken : Bool) (visited_pages : List Url)
    (links : List (Url × Url)) (links_to_crawl : List Url) :
    visits (process_links net base_url record_only_broken visited_pages
      links links_to_crawl).events = [] := by
  induction links generalizing links_to_crawl with
  | nil => rfl
  | cons head rest ih =>
      obtain ⟨sp, lu⟩ := head
      by_cases h : starts_with lu tagged_records_url <;>
        simp [process_links, h, ih]

theorem count_process_links (net : Network) (base_url : Url)
    (record_only_broken : Bool) (visited_pages : List Url)
    (links : List (Url × Url)) (links_to_crawl : List Url) :
    (process_links net base_url record_only_broken visited_pages
      links links_to_crawl).count
    = (checks (process_links net base_url record_only_broken visited_pages
        links links_to_crawl).events).length := by
  induction links generalizing links_to_crawl with
  | nil => rfl
  | cons head rest ih =>
      obtain ⟨sp, lu⟩ := head
      by_cases h : starts_with lu tagged_records_url <;>
        simp [process_links, h, ih]

theorem rows_process_links (net : Network) (base_url : Url)
    (record_only_broken : Bool) (visited_pages : List Url)
    (links : List (Url × Url)) (links_to_crawl : List Url) :
    ∀ r ∈ (process_links net base_url record_only_broken visited_pages
      links links_to_crawl).rows,
      ∃ sp lu st, r = Row.data sp lu st ∧
        (record_only_broken = true → st = Status.broken) := by
  induction links generalizing links_to_crawl with
  | nil => intro r hr; simp [process_links] at hr
  | cons head rest ih =>
      obtain ⟨sp, lu⟩ := head
      intro r hr
      cases h : starts_with lu tagged_records_url with
      | true => exact ih _ r (by simpa [process_links, h] using hr)
      | false =>
          simp only [process_links, h, Bool.false_eq_true, if_false,
            List.mem_append] at hr
          rcases hr with hr | hr
          · cases hb : (!record_only_broken || (check_link net lu).1 == Status.broken) with
            | true =>
                rw [if_pos hb] at hr
                simp only [List.mem_singleton] at hr
                refine ⟨sp, lu, (check_link net lu).1, hr, ?_⟩
                intro hro
                subst hro
                simpa using hb
            | false =>
                rw [if_neg (by simp [hb])] at hr
                simp at hr
          · exact ih _ r hr

theorem frontier_process_links (net : Network) (base_url : Url)
    (record_only_broken : Bool) (visited_pages : List Url)
    (links : List (Url × Url)) (links_to_crawl : List Url) :
    ∀ u ∈ (process_links net base_url record_only_broken visited_pages
      links links_to_crawl).frontier,
      u ∈ links_to_crawl ∨
        ((∃ sp, (sp, u) ∈ links) ∧ is_same_or_subpath u base_url = true ∧
          u ∉ visited_pages) := by
  induction links generalizing links_to_crawl with
  | nil => intro u hu; exact Or.inl hu
  | cons head rest ih =>
      obtain ⟨sp, lu⟩ := head
      intro u hu
      cases h : starts_with lu tagged_records_url with
      | true =>
          rcases ih _ u (by simpa [process_links, h] using hu) with h1 | ⟨⟨sp0, hsp⟩, h2, h3⟩
          · exact Or.inl h1
          · exact Or.inr ⟨⟨sp0, by simp [hsp]⟩, h2, h3⟩
      | false =>
          simp only [process_links, h, Bool.false_eq_true, if_false] at hu
          cases hg : (is_same_or_subpath lu base_url && !(visited_pages.contains lu)) with
          | true =>
              rw [if_pos hg] at hu
              rcases ih _ u hu with h1 | ⟨⟨sp0, hsp⟩, h2, h3⟩
              · rcases (mem_insert_url u lu links_to_crawl).1 h1 with h1 | h1
                · exact Or.inl h1
                · subst h1
                  simp only [Bool.and_eq_true, Bool.not_eq_true'] at hg
                  refine Or.inr ⟨⟨sp, by simp⟩, hg.1, ?_⟩
                  intro hmem
                  have hc : visited_pages.contains u = true := by simpa using hmem
                  rw [hc] at hg
                  exact absurd hg.2 (by simp)
              · exact Or.inr ⟨⟨sp0, by simp [hsp]⟩, h2, h3⟩
          | false =>
              rw [hg] at hu
              simp only [Bool.false_eq_true, if_false] at hu
              rcases ih _ u hu with h1 | ⟨⟨sp0, hsp⟩, h2, h3⟩
              · exact Or.inl h1
              · exact Or.inr ⟨⟨sp0, by simp [hsp]⟩, h2, h3⟩

theorem checks_cover_process_links (net : Network) (base_url : Url)
    (record_only_broken : Bool) (visited_pages : List Url)
    (links : List (Url × Url)) (links_to_crawl : List Url) :
    ∀ p ∈ links, starts_with p.2 tagged_records_url = false →
      ∃ st, Event.checkEv p.2 st ∈ (process_links net base_url record_only_broken
        visited_pages links links_to_crawl).events := by
  induction links generalizing links_to_crawl with
  | nil => intro p hp; simp at hp
  | cons head rest ih =>
      obtain ⟨sp, lu⟩ := head
      intro p hp hnb
      rcases List.mem_cons.1 hp with hp | hp
      · subst hp
        simp only at hnb
        simp only [process_links, hnb, Bool.false_eq_true, if_false]
        refine ⟨(check_link net lu).1, ?_⟩
        have : Event.checkEv lu (check_link net lu).1 ∈ (check_link net lu).2 := by
          unfold check_link
          cases net lu <;> simp
        simp [this]
      · cases h : starts_with lu tagged_records_url with
        | true => simpa [process_links, h] using ih _ p hp hnb
        | false =>
            rcases ih (if is_same_or_subpath lu base_url && !(visited_pages.contains lu)
                then insert_url lu links_to_crawl else links_to_crawl) p hp hnb with ⟨st, hst⟩
            refine ⟨st, ?_⟩
            simp only [process_links, h, Bool.false_eq_true, if_false, List.mem_append]
            exact Or.inr hst

theorem crawl_step_visited (env : UrlEnv) (net : Network) (pick : Nat)
    (base_url : Url) (record_only_broken : Bool) (menu_links : List Url)
    (s : LoopState) :
    (visits (crawl_step env net pick base_url record_only_broken menu_links s).2 = []
      ∧ (crawl_step env net pick base_url record_only_broken menu_links s).1.visited
          = s.visited) ∨
    (∃ u, u ∉ s.visited ∧
      visits (crawl_step env net pick base_url record_only_broken menu_links s).2 = [u] ∧
      ∀ v, v ∈ (crawl_step env net pick base_url record_only_broken menu_links s).1.visited
        ↔ v ∈ s.visited ∨ v = u) := by
  unfold crawl_step
  cases hg : (!(s.visited.contains (s.frontier.getD (pick % s.frontier.length) ""))
      && is_same_or_subpath (s.frontier.getD (pick % s.frontier.length) "") base_url) with
  | false =>
      simp only [hg, Bool.false_eq_true, if_false]
      simp [visits]
  | true =>
      simp only [hg, if_true]
      refine Or.inr ⟨s.frontier.getD (pick % s.frontier.length) "", ?_, ?_, ?_⟩
      · simp only [Bool.and_eq_true, Bool.not_eq_true'] at hg
        intro hmem
        have : s.visited.contains (s.frontier.getD (pick % s.frontier.length) "") = true := by
          simpa using hmem
        rw [this] at hg
        exact absurd hg.1 (by simp)
      · simp [visits_process_links]
      · intro v
        simpa using mem_insert_url v (s.frontier.getD (pick % s.frontier.length) "") s.visited

theorem crawl_step_count (env : UrlEnv) (net : Network) (pick : Nat)
    (base_url : Url) (record_only_broken : Bool) (menu_links : List Url)
    (s : LoopState) :
    (crawl_step env net pick base_url record_only_broken menu_links s).1.count
      = s.count +
        (checks (crawl_step env net pick base_url record_only_broken menu_links s).2).length := by
  unfold crawl_step
  cases hg : (!(s.visited.contains (s.frontier.getD (pick % s.frontier.length) ""))
      && is_same_or_subpath (s.frontier.getD (pick % s.frontier.length) "") base_url) with
  | false =>
      simp only [hg, Bool.false_eq_true, if_false]
      simp [checks]
  | true =>
      simp only [hg, if_true]
      simp [count_process_links]

theorem crawl_step_rows (env : UrlEnv) (net : Network) (pick : Nat)
    (base_url : Url) (record_only_broken : Bool) (menu_links : List Url)
    (s : LoopState) :
    ∃ extra,
      (crawl_step env net pick base_url record_only_broken menu_links s).1.rows
        = s.rows ++ extra ∧
      ∀ r ∈ extra, ∃ sp lu st, r = Row.data sp lu st ∧
        (record_only_broken = true → st = Status.broken) := by
  unfold crawl_step
  cases hg : (!(s.visited.contains (s.frontier.getD (pick % s.frontier.length) ""))
      && is_same_or_subpath (s.frontier.getD (pick % s.frontier.length) "") base_url) with
  | false =>
      simp only [hg, Bool.false_eq_true, if_false]
      exact ⟨[], by simp, by simp⟩
  | true =>
      simp only [hg, if_true]
      exact ⟨_, rfl, fun r hr => rows_process_links net base_url record_only_broken _ _ _ r hr⟩

theorem crawl_step_frontier (env : UrlEnv) (net : Network) (pick : Nat)
    (base_url : Url) (record_only_broken : Bool) (menu_links : List Url)
    (s : LoopState) :
    ∀ u ∈ (crawl_step env net pick base_url record_only_broken menu_links s).1.frontier,
      u ∈ s.frontier ∨ (is_same_or_subpath u base_url = true ∧ u ∉ s.visited) := by
  unfold crawl_step
  cases hg : (!(s.visited.contains (s.frontier.getD (pick % s.frontier.length) ""))
      && is_same_or_subpath (s.frontier.getD (pick % s.frontier.length) "") base_url) with
  | false =>
      simp only [hg, Bool.false_eq_true, if_false]
      intro u hu
      exact Or.inl (List.mem_of_mem_eraseIdx (by simpa using hu))
  | true =>
      simp only [hg, if_true]
      intro u hu
      rcases frontier_process_links net base_url record_only_broken _ _ _ u hu with
        h1 | ⟨_, h2, h3⟩
      · exact Or.inl (List.mem_of_mem_eraseIdx h1)
      · refine Or.inr ⟨h2, ?_⟩
        intro hmem
        exact h3 ((mem_insert_url u _ s.visited).2 (Or.inl hmem))

theorem crawl_loop_empty (env : UrlEnv) (net : Network) (sched : Nat → Nat)
    (base_url : Url) (record_only_broken : Bool) (menu_links : List Url)
    (fuel : Nat) (s : LoopState) (h : s.frontier = []) :
    crawl_loop env net sched base_url record_only_broken menu_links fuel s
      = (s, [], true) := by
  cases fuel with
  | zero => simp [crawl_loop, h]
  | succ f => simp [crawl_loop, h]

theorem crawl_loop_visits (env : UrlEnv) (net : Network) (sched : Nat → Nat)
    (base_url : Url) (record_only_broken : Bool) (menu_links : List Url) :
    ∀ (fuel : Nat) (s : LoopState),
      (visits (crawl_loop env net sched base_url record_only_broken menu_links
        fuel s).2.1).Nodup ∧
      (∀ u ∈ s.visited, u ∉ visits (crawl_loop env net sched base_url
        record_only_broken menu_links fuel s).2.1) ∧
      (∀ v, v ∈ (crawl_loop env net sched base_url record_only_broken menu_links
          fuel s).1.visited ↔
        v ∈ s.visited ∨ v ∈ visits (crawl_loop env net sched base_url
          record_only_broken menu_links fuel s).2.1) := by
  intro fuel
  induction fuel with
  | zero => intro s; simp [crawl_loop, visits]
  | succ f ih =>
      intro s
      cases he : s.frontier.isEmpty with
      | true => simp [crawl_loop, he, visits]
      | false =>
          simp only [crawl_loop, he, Bool.false_eq_true, if_false, visits_append]
          rcases crawl_step_visited env net (sched f) base_url record_only_broken
              menu_links s with ⟨hv0, hs0⟩ | ⟨u, hu, hv1, hiff⟩
          · rcases ih (crawl_step env net (sched f) base_url record_only_broken
                menu_links s).1 with ⟨ih1, ih2, ih3⟩
            rw [hv0]
            refine ⟨by simpa using ih1, ?_, ?_⟩
            · intro v hv
              have hv' : v ∈ (crawl_step env net (sched f) base_url
                  record_only_broken menu_links s).1.visited := by
                rw [hs0]; exact hv
              simpa using ih2 v hv'
            · intro v
              rw [List.nil_append, ih3 v, hs0]
          · rcases ih (crawl_step env net (sched f) base_url record_only_broken
                menu_links s).1 with ⟨ih1, ih2, ih3⟩
            have humem : u ∈ (crawl_step env net (sched f) base_url
                record_only_broken menu_links s).1.visited :=
              (hiff u).2 (Or.inr rfl)
            have hnotin : u ∉ visits (crawl_loop env net sched base_url
                record_only_broken menu_links f (crawl_step env net (sched f)
                  base_url record_only_broken menu_links s).1).2.1 :=
              ih2 u humem
            refine ⟨?_, ?_, ?_⟩
            · rw [hv1]
              simpa using ⟨hnotin, ih1⟩
            · intro v hv
              rw [hv1]
              have hvmem : v ∈ (crawl_step env net (sched f) base_url
                  record_only_broken menu_links s).1.visited :=
                (hiff v).2 (Or.inl hv)
              have : v ≠ u := by
                rintro rfl
                exact hu hv
              simpa using ⟨this, ih2 v hvmem⟩
            · intro v
              rw [hv1, ih3 v, hiff v]
              constructor
              · rintro ((h1 | rfl) | h2)
                · exact Or.inl h1
                · exact Or.inr (by simp)
                · exact Or.inr (by simp [h2])
              · rintro (h1 | h2)
                · exact Or.inl (Or.inl h1)
                · rcases List.mem_cons.1 (by simpa using h2) with rfl | h2
                  · exact Or.inl (Or.inr rfl)
                  · exact Or.inr h2

theorem crawl_loop_count (env : UrlEnv) (net : Network) (sched : Nat → Nat)
    (base_url : Url) (record_only_broken : Bool) (menu_links : List Url) :
    ∀ (fuel : Nat) (s : LoopState),
      (crawl_loop env net sched base_url record_only_broken menu_links
        fuel s).1.count
      = s.count + (checks (crawl_loop env net sched base_url record_only_broken
          menu_links fuel s).2.1).length := by
  intro fuel
  induction fuel with
  | zero => intro s; simp [crawl_loop, checks]
  | succ f ih =>
      intro s
      cases he : s.frontier.isEmpty with
      | true => simp [crawl_loop, he, checks]
      | false =>
          simp only [crawl_loop, he, Bool.false_eq_true, if_false, checks_append]
          rw [ih, crawl_step_count]
          simp [Nat.add_assoc, Nat.add_comm]

theorem crawl_loop_rows (env : UrlEnv) (net : Network) (sched : Nat → Nat)
    (base_url : Url) (record_only_broken : Bool) (menu_links : List Url) :
    ∀ (fuel : Nat) (s : LoopState),
      ∃ extra,
        (crawl_loop env net sched base_url record_only_broken menu_links
          fuel s).1.rows = s.rows ++ extra ∧
        ∀ r ∈ extra, ∃ sp lu st, r = Row.data sp lu st ∧
          (record_only_broken = true → st = Status.broken) := by
  intro fuel
  induction fuel with
  | zero => intro s; exact ⟨[], by simp [crawl_loop], by simp⟩
  | succ f ih =>
      intro s
      cases he : s.frontier.isEmpty with
      | true => exact ⟨[], by simp [crawl_loop, he], by simp⟩
      | false =>
          rcases crawl_step_rows env net (sched f) base_url record_only_broken
              menu_links s with ⟨e₁, he₁, hp₁⟩
          rcases ih (crawl_step env net (sched f) base_url record_only_broken
              menu_links s).1 with ⟨e₂, he₂, hp₂⟩
          refine ⟨e₁ ++ e₂, ?_, ?_⟩
          · simp only [crawl_loop, he, Bool.false_eq_true, if_false]
            rw [he₂, he₁, List.append_assoc]
          · intro r hr
            rcases List.mem_append.1 hr with hr | hr
            · exact hp₁ r hr
            · exact hp₂ r hr

@[simp]
theorem visits_extract_menu_links (env : UrlEnv) (net : Network) (url : Url) :
    visits (extract_menu_links env net url).2 = [] := by
  unfold extract_menu_links
  cases net url with
  | err => rfl
  | ok response => by_cases h : is_html response <;> simp [h, visits]

theorem visits_check_menu_links (net : Network) (start_url : Url) :
    ∀ l : List Url, visits (check_menu_links net start_url l).2 = [] := by
  intro l
  induction l with
  | nil => rfl
  | cons m rest ih => simp [check_menu_links, ih]

theorem menu_rows_shape (record_only_broken : Bool)
    (menu_results : List (Url × Url × Status)) :
    ∀ r ∈ menu_rows record_only_broken menu_results,
      ∃ sp lu st, r = Row.data sp lu st ∧
        (record_only_broken = true → st = Status.broken) := by
  intro r hr
  rcases List.mem_filterMap.1 hr with ⟨t, _, ht⟩
  cases hb : (!record_only_broken || t.2.2 == Status.broken) with
  | true =>
      rw [hb] at ht
      simp only [if_true, Option.some_inj] at ht
      refine ⟨t.1, t.2.1, t.2.2, ht.symm, ?_⟩
      intro ho
      subst ho
      simpa using hb
  | false =>
      rw [hb] at ht
      simp at ht

/-- A concrete `urllib.parse` environment for witnesses: every URL parses
with a scheme and a netloc, and joining returns the href unchanged. -/
def test_env : UrlEnv := ⟨fun _ => "https", fun _ => "host", fun _ href => href⟩

/-- A concrete network for witnesses: page `"S"` is HTML with nav anchor
`"M"` and body anchors `"M"`, `"B"`; page `"M"` is empty HTML; everything
else is a transport error. -/
def test_net : Network := fun u =>
  if u == "S" then FetchResult.ok ⟨200, "text/html", ["M"], ["M", "B"]⟩
  else if u == "M" then FetchResult.ok ⟨200, "text/html", [], []⟩
  else FetchResult.err

/-- A network where every fetch fails with a transport error. -/
def net_err : Network := fun _ => FetchResult.err

/-- A fresh run (no state file) of the concrete website. -/
def run_fresh : RunResult :=
  crawl_website test_env test_net (fun _ => 0) 10 "S" "S" "report.csv" false none

/-- A resumed run: persisted visited set `{"A"}`, empty frontier. -/
def run_resumed : RunResult :=
  crawl_website test_env test_net (fun _ => 0) 10 "S" "S" "report.csv" false
    (some (["A"], []))

/-- A fresh run with `record_only_broken = True`. -/
def run_broken_only : RunResult :=
  crawl_website test_env test_net (fun _ => 0) 10 "S" "S" "report.csv" true none

/-- C2: `check_link` returns Working exactly when the GET yields a response
with HTTP status 200; in every other case — any other status, or a
transport-level failure — it returns Broken.  It is a total function, so it
never raises and always returns one of the two statuses. -/
theorem check_link_total_spec (net : Network) (url : Url) :
    ((check_link net url).1 = Status.working ∨
      (check_link net url).1 = Status.broken) ∧
    ((check_link net url).1 = Status.working ↔
      ∃ response, net url = FetchResult.ok response ∧ response.status = 200) ∧
    ((check_link net url).1 = Status.broken ↔
      ¬ ∃ response, net url = FetchResult.ok response ∧ response.status = 200) := by
  unfold check_link
  cases hn : net url with
  | err => simp
  | ok response =>
      cases hs : response.status == 200 with
      | true =>
          simp [hs]
          exact (by simpa using hs)
      | false =>
          simp [hs]
          exact (by simpa using hs)

/-- C9: when the fetch fails with a transport error, or the response is not
HTML, both `extract_menu_links` and `get_body_links` return the empty set;
both are total functions, so neither raises to the caller. -/
theorem extractors_empty_on_failure (env : UrlEnv) (net : Network)
    (url base_url : Url) (menu_links : List Url) :
    (net url = FetchResult.err →
      (extract_menu_links env net url).1 = [] ∧
      (get_body_links env net url base_url menu_links).1 = []) ∧
    (∀ response, net url = FetchResult.ok response → is_html response = false →
      (extract_menu_links env net url).1 = [] ∧
      (get_body_links env net url base_url menu_links).1 = []) := by
  constructor
  · intro h
    unfold extract_menu_links get_body_links
    rw [h]
    exact ⟨rfl, rfl⟩
  · intro response h hh
    unfold extract_menu_links get_body_links
    rw [h]
    simp [hh]

/-- C9 witness: a network where every fetch is a transport error yields
empty link sets from both extractors. -/
theorem extractors_empty_on_failure_witness :
    net_err "u" = FetchResult.err ∧
    ((extract_menu_links test_env net_err "u").1 = [] ∧
      (get_body_links test_env net_err "u" "b" []).1 = []) :=
  ⟨rfl, (extractors_empty_on_failure test_env net_err "u" "b" []).1 rfl⟩

/-- C10: `get_body_links` is independent of its `base_url` argument — the
parameter is accepted but never used. -/
theorem get_body_links_ignores_base_url (env : UrlEnv) (net : Network)
    (url : Url) (menu_links : List Url) (b1 b2 : Url) :
    get_body_links env net url b1 menu_links
      = get_body_links env net url b2 menu_links := rfl

/-- C5 counterexample: the claim says every HTTP fetch is issued with a
fixed 10-unit timeout, but a fresh concrete run performs fetches with no
timeout (the page fetches of `extract_menu_links` and `get_body_links`). -/
theorem fetch_timeout_not_universal_cex :
    ((fetches run_fresh.events).all fun p => p.2 == some 10) = false := by decide

/-- C5 (amended): the fetch of `check_link` is issued with a fixed 10-unit
timeout, while the page fetches of `extract_menu_links` and
`get_body_links` are issued with no timeout at all. -/
theorem fetch_timeout_by_call_site (env : UrlEnv) (net : Network)
    (url base_url : Url) (menu_links : List Url) :
    (∀ p ∈ fetches (check_link net url).2, p.2 = some 10) ∧
    (∀ p ∈ fetches (extract_menu_links env net url).2, p.2 = none) ∧
    (∀ p ∈ fetches (get_body_links env net url base_url menu_links).2,
      p.2 = none) := by
  refine ⟨?_, ?_, ?_⟩ <;> intro p hp
  · rw [fetches_check_link] at hp
    simp only [List.mem_singleton] at hp
    rw [hp]
  · rw [fetches_extract_menu_links] at hp
    simp only [List.mem_singleton] at hp
    rw [hp]
  · rw [fetches_get_body_links] at hp
    simp only [List.mem_singleton] at hp
    rw [hp]

/-- C5 witness: the `check_link` fetch event at a concrete URL carries the
10-unit timeout. -/
theorem fetch_timeout_by_call_site_witness :
    ("u", (some 10 : Option Nat)) ∈ fetches (check_link net_err "u").2 ∧
    ("u", (some 10 : Option Nat)).2 = some 10 :=
  ⟨by decide,
   (fetch_timeout_by_call_site test_env net_err "u" "b" []).1 ("u", some 10) (by decide)⟩

/-- C4 counterexample: on a fresh concrete run with one menu link, the menu
pass performs a `check_link` call that the final summary does not count:
the run performs 2 `check_link` calls but reports 1. -/
theorem summary_excludes_menu_checks_cex :
    run_fresh.summary ≠ (checks run_fresh.events).length := by decide

/-- C4 (amended): the final summary equals the number of `check_link` calls
performed by the crawl loop; `check_link` calls made during the menu pass
of a fresh run are not counted. -/
theorem summary_counts_loop_checks (env : UrlEnv) (net : Network)
    (sched : Nat → Nat) (fuel : Nat) (start_url base_url csv_filename : String)
    (record_only_broken : Bool) (stored : Option (List Url × List Url)) :
    (crawl_website env net sched fuel start_url base_url csv_filename
      record_only_broken stored).summary
    = (checks (crawl_website env net sched fuel start_url base_url csv_filename
        record_only_broken stored).loopEvents).length := by
  unfold crawl_website
  cases h : (load_state stored).1.isEmpty with
  | true =>
      simp only [h, if_true, Bool.true_and]
      refine (crawl_loop_count env net sched base_url record_only_broken _ fuel _).trans ?_
      simp
  | false =>
      simp only [h, Bool.false_eq_true, if_false, Bool.false_and]
      refine (crawl_loop_count env net sched base_url record_only_broken _ fuel _).trans ?_
      simp

/-- C7: in the crawl loop's inner `for` loop, every body link outside the
blocklist is verified with `check_link` regardless of scope, and a link
enters the frontier only if it was already there or is in scope (starts
with the base URL) and not in the visited set. -/
theorem body_links_checked_scope_gated (net : Network) (base_url : Url)
    (record_only_broken : Bool) (visited_pages : List Url)
    (links : List (Url × Url)) (links_to_crawl : List Url) :
    (∀ p ∈ links, starts_with p.2 tagged_records_url = false →
      ∃ st, Event.checkEv p.2 st ∈ (process_links net base_url
        record_only_broken visited_pages links links_to_crawl).events) ∧
    (∀ u ∈ (process_links net base_url record_only_broken visited_pages
        links links_to_crawl).frontier,
      u ∈ links_to_crawl ∨
        ((∃ sp, (sp, u) ∈ links) ∧ is_same_or_subpath u base_url = true ∧
          u ∉ visited_pages)) :=
  ⟨checks_cover_process_links net base_url record_only_broken visited_pages
      links links_to_crawl,
   frontier_process_links net base_url record_only_broken visited_pages
      links links_to_crawl⟩

/-- C7 witness: a concrete out-of-scope body link is checked (a `checkEv`
for it appears in the events) during the inner loop. -/
theorem body_links_checked_scope_gated_witness :
    ("S", "B") ∈ [(("S" : Url), ("B" : Url))] ∧
    starts_with "B" tagged_records_url = false ∧
    ∃ st, Event.checkEv "B" st ∈
      (process_links test_net "S" false ["S"] [("S", "B")] []).events :=
  ⟨by decide, by decide,
   (body_links_checked_scope_gated test_net "S" false ["S"] [("S", "B")] []).1
     ("S", "B") (by decide) (by decide)⟩

end LinkChecker

namespace LinkChecker

/-- C3: starting `crawl_website` from a persisted state with an empty
frontier and a non-empty visited set performs no fetch and no link check,
appends no row, leaves the state unchanged, and reaches Done immediately
with a summary of 0. -/
theorem completed_resume_is_noop (env : UrlEnv) (net : Network)
    (sched : Nat → Nat) (fuel : Nat) (start_url base_url csv_filename : String)
    (record_only_broken : Bool) (visited : List Url) (h : visited ≠ []) :
    (crawl_website env net sched fuel start_url base_url csv_filename
      record_only_broken (some (visited, []))).events = [] ∧
    (crawl_website env net sched fuel start_url base_url csv_filename
      record_only_broken (some (visited, []))).rows = [] ∧
    (crawl_website env net sched fuel start_url base_url csv_filename
      record_only_broken (some (visited, []))).summary = 0 ∧
    (crawl_website env net sched fuel start_url base_url csv_filename
      record_only_broken (some (visited, []))).completed = true ∧
    (crawl_website env net sched fuel start_url base_url csv_filename
      record_only_broken (some (visited, []))).visited = visited ∧
    (crawl_website env net sched fuel start_url base_url csv_filename
      record_only_broken (some (visited, []))).frontier = [] := by
  have hie : visited.isEmpty = false := by
    cases visited with
    | nil => exact absurd rfl h
    | cons a l => rfl
  unfold crawl_website
  simp only [load_state, Option.getD_some, hie, Bool.false_eq_true, if_false,
    Bool.false_and]
  rw [crawl_loop_empty env net sched base_url record_only_broken [] fuel
    ⟨visited, [], 0, []⟩ rfl]
  simp [RunResult.events]

/-- C3 witness: resuming from visited set `{"A"}` and an empty frontier
does nothing. -/
theorem completed_resume_is_noop_witness :
    (["A"] : List Url) ≠ [] ∧
    ((crawl_website test_env test_net (fun _ => 0) 10 "S" "S" "report.csv"
      false (some (["A"], []))).events = [] ∧
     (crawl_website test_env test_net (fun _ => 0) 10 "S" "S" "report.csv"
      false (some (["A"], []))).rows = [] ∧
     (crawl_website test_env test_net (fun _ => 0) 10 "S" "S" "report.csv"
      false (some (["A"], []))).summary = 0 ∧
     (crawl_website test_env test_net (fun _ => 0) 10 "S" "S" "report.csv"
      false (some (["A"], []))).completed = true ∧
     (crawl_website test_env test_net (fun _ => 0) 10 "S" "S" "report.csv"
      false (some (["A"], []))).visited = ["A"] ∧
     (crawl_website test_env test_net (fun _ => 0) 10 "S" "S" "report.csv"
      false (some (["A"], []))).frontier = []) :=
  ⟨by decide,
   completed_resume_is_noop test_env test_net (fun _ => 0) 10 "S" "S"
     "report.csv" false ["A"] (by decide)⟩

/-- C1: within one `crawl_website` run, no URL is marked visited twice
(the visit trace has no duplicates), the menu pass visits nothing, a URL
already in the loaded visited set is never re-processed, and the final
visited set is exactly the loaded visited set plus the URLs visited this
run — each entering exactly once. -/
theorem crawl_no_duplicate_visits (env : UrlEnv) (net : Network)
    (sched : Nat → Nat) (fuel : Nat) (start_url base_url csv_filename : String)
    (record_only_broken : Bool) (stored : Option (List Url × List Url)) :
    (visits (crawl_website env net sched fuel start_url base_url csv_filename
      record_only_broken stored).loopEvents).Nodup ∧
    visits (crawl_website env net sched fuel start_url base_url csv_filename
      record_only_broken stored).menuEvents = [] ∧
    (∀ u ∈ (load_state stored).1,
      u ∉ visits (crawl_website env net sched fuel start_url base_url
        csv_filename record_only_broken stored).loopEvents) ∧
    (∀ v, v ∈ (crawl_website env net sched fuel start_url base_url csv_filename
        record_only_broken stored).visited ↔
      v ∈ (load_state stored).1 ∨
        v ∈ visits (crawl_website env net sched fuel start_url base_url
          csv_filename record_only_broken stored).loopEvents) := by
  unfold crawl_website
  cases h : (load_state stored).1.isEmpty with
  | true =>
      simp only [h, if_true, Bool.true_and]
      refine ⟨?_, ?_, ?_, ?_⟩
      · exact (crawl_loop_visits env net sched base_url record_only_broken
          _ fuel _).1
      · simp [visits_check_menu_links]
      · intro u hu
        exact (crawl_loop_visits env net sched base_url record_only_broken
          _ fuel _).2.1 u hu
      · intro v
        exact (crawl_loop_visits env net sched base_url record_only_broken
          _ fuel _).2.2 v
  | false =>
      simp only [h, Bool.false_eq_true, if_false, Bool.false_and]
      refine ⟨?_, ?_, ?_, ?_⟩
      · exact (crawl_loop_visits env net sched base_url record_only_broken
          _ fuel _).1
      · simp [visits]
      · intro u hu
        exact (crawl_loop_visits env net sched base_url record_only_broken
          _ fuel _).2.1 u hu
      · intro v
        exact (crawl_loop_visits env net sched base_url record_only_broken
          _ fuel _).2.2 v

/-- C1 witness: on a resumed run with visited set `{"A"}` and frontier
`{"B"}`, the already-visited URL `"A"` is never re-visited. -/
theorem crawl_no_duplicate_visits_witness :
    ("A" : Url) ∈ (load_state (some (["A"], ["B"]))).1 ∧
    ("A" : Url) ∉ visits (crawl_website test_env test_net (fun _ => 0) 10 "S" "S"
      "report.csv" false (some (["A"], ["B"]))).loopEvents :=
  ⟨by decide,
   (crawl_no_duplicate_visits test_env test_net (fun _ => 0) 10 "S" "S"
     "report.csv" false (some (["A"], ["B"]))).2.2.1 "A" (by decide)⟩

end LinkChecker

namespace LinkChecker

/-- C6 counterexample: on a resumed run (non-empty persisted visited set)
no header row is written during that run, contradicting "written exactly
once ... regardless of whether the run is fresh or resumed". -/
theorem header_missing_on_resume_cex :
    run_resumed.rows.count Row.header ≠ 1 := by decide

/-- C6 (amended): the header row is written exactly once on a fresh run
(visited set empty at load time), before any menu-link result row; on a
resumed run no header row (and no menu row) is written at all. -/
theorem header_row_iff_fresh (env : UrlEnv) (net : Network) (sched : Nat → Nat)
    (fuel : Nat) (start_url base_url csv_filename : String)
    (record_only_broken : Bool) (stored : Option (List Url × List Url)) :
    ((crawl_website env net sched fuel start_url base_url csv_filename
      record_only_broken stored).rows.count Row.header
      = if (load_state stored).1.isEmpty = true then 1 else 0) ∧
    ((load_state stored).1.isEmpty = true →
      (crawl_website env net sched fuel start_url base_url csv_filename
        record_only_broken stored).rows.head? = some Row.header) := by
  unfold crawl_website
  cases h : (load_state stored).1.isEmpty with
  | true =>
      simp only [h, if_true, Bool.true_and]
      obtain ⟨extra, he, hp⟩ := crawl_loop_rows env net sched base_url
        record_only_broken (extract_menu_links env net start_url).1 fuel
        ⟨(load_state stored).1,
          if (load_state stored).2.isEmpty = true then
            insert_url start_url (load_state stored).2
          else (load_state stored).2,
          0,
          Row.header :: menu_rows record_only_broken
            (check_menu_links net start_url (extract_menu_links env net start_url).1).1⟩
      have hm : (menu_rows record_only_broken
          (check_menu_links net start_url (extract_menu_links env net start_url).1).1).count
            Row.header = 0 := by
        rw [List.count_eq_zero]
        intro hmem
        rcases menu_rows_shape record_only_broken _ _ hmem with ⟨sp, lu, st, hshape, _⟩
        exact Row.noConfusion hshape
      have hx : extra.count Row.header = 0 := by
        rw [List.count_eq_zero]
        intro hmem
        rcases hp _ hmem with ⟨sp, lu, st, hshape, _⟩
        exact Row.noConfusion hshape
      constructor
      · rw [he, List.count_append, List.count_cons_self, hm, hx]
      · intro _
        rw [he, List.cons_append, List.head?_cons]
  | false =>
      simp only [h, Bool.false_eq_true, if_false, Bool.false_and]
      obtain ⟨extra, he, hp⟩ := crawl_loop_rows env net sched base_url
        record_only_broken [] fuel
        ⟨(load_state stored).1, (load_state stored).2, 0, []⟩
      have hx : extra.count Row.header = 0 := by
        rw [List.count_eq_zero]
        intro hmem
        rcases hp _ hmem with ⟨sp, lu, st, hshape, _⟩
        exact Row.noConfusion hshape
      constructor
      · rw [he, List.nil_append, hx]
      · intro hcon
        exact absurd hcon (by simp [h])

/-- C6 witness: a fresh concrete run has its header row first and exactly
once. -/
theorem header_row_iff_fresh_witness :
    (load_state (none : Option (List Url × List Url))).1.isEmpty = true ∧
    (crawl_website test_env test_net (fun _ => 0) 10 "S" "S" "report.csv"
      false none).rows.head? = some Row.header :=
  ⟨by decide,
   (header_row_iff_fresh test_env test_net (fun _ => 0) 10 "S" "S"
     "report.csv" false none).2 (by decide)⟩

/-- C8: with `record_only_broken = true`, every row `crawl_website` writes
— in the menu pass and in the crawl loop — is either the header or a data
row with status Broken; no Working row is ever written. -/
theorem broken_only_all_rows_broken (env : UrlEnv) (net : Network)
    (sched : Nat → Nat) (fuel : Nat) (start_url base_url csv_filename : String)
    (stored : Option (List Url × List Url)) :
    ∀ r ∈ (crawl_website env net sched fuel start_url base_url csv_filename
        true stored).rows,
      r = Row.header ∨ ∃ sp lu, r = Row.data sp lu Status.broken := by
  unfold crawl_website
  cases h : (load_state stored).1.isEmpty with
  | true =>
      simp only [h, if_true, Bool.true_and]
      intro r hr
      obtain ⟨extra, he, hp⟩ := crawl_loop_rows env net sched base_url
        true (extract_menu_links env net start_url).1 fuel
        ⟨(load_state stored).1,
          if (load_state stored).2.isEmpty = true then
            insert_url start_url (load_state stored).2
          else (load_state stored).2,
          0,
          Row.header :: menu_rows true
            (check_menu_links net start_url (extract_menu_links env net start_url).1).1⟩
      rw [he] at hr
      rcases List.mem_append.1 hr with hr | hr
      · rcases List.mem_cons.1 hr with rfl | hr
        · exact Or.inl rfl
        · rcases menu_rows_shape true _ r hr with ⟨sp, lu, st, rfl, hb⟩
          exact Or.inr ⟨sp, lu, by rw [hb rfl]⟩
      · rcases hp r hr with ⟨sp, lu, st, rfl, hb⟩
        exact Or.inr ⟨sp, lu, by rw [hb rfl]⟩
  | false =>
      simp only [h, Bool.false_eq_true, if_false, Bool.false_and]
      intro r hr
      obtain ⟨extra, he, hp⟩ := crawl_loop_rows env net sched base_url
        true [] fuel
        ⟨(load_state stored).1, (load_state stored).2, 0, []⟩
      rw [he] at hr
      rcases List.mem_append.1 hr with hr | hr
      · simp at hr
      · rcases hp r hr with ⟨sp, lu, st, rfl, hb⟩
        exact Or.inr ⟨sp, lu, by rw [hb rfl]⟩

/-- C8 witness: a concrete broken-only run writes the broken body link's
row, and that row is indeed Broken. -/
theorem broken_only_all_rows_broken_witness :
    Row.data "S" "B" Status.broken ∈ run_broken_only.rows ∧
    (Row.data "S" "B" Status.broken = Row.header ∨
      ∃ sp lu, Row.data "S" "B" Status.broken = Row.data sp lu Status.broken) :=
  ⟨by decide,
   broken_only_all_rows_broken test_env test_net (fun _ => 0) 10 "S" "S"
     "report.csv" none (Row.data "S" "B" Status.broken) (by decide)⟩

end LinkChecker
